import Mathlib

/-!
Verification of the Simulator Streaming Server core (Swift sources under
`src/swift/Sources/SimulatorServer` and the parallel snapshot in
`src/unnamed/part_010` / `part_012`) against its natural-language
specification.

Strings are embedded as `List Char` (the sequence of characters of a Swift
`String`), byte buffers (`Data`) as `List Nat`, and Swift `Double`/`Float`
values as `Rat`.  All definitions are direct translations of the source;
definitions that model a Swift standard-library call (string splitting,
numeric parsing) carry a comment saying which call they model.
-/

/-- Characters of a Swift `String`. -/
abbrev Str := List Char

/-- Models membership in `CharacterSet.whitespaces` (space and horizontal tab)
as used by `trimmingCharacters(in: .whitespaces)` in `CommandHandler.swift`. -/
def isSimWhitespace (c : Char) : Bool := c = ' ' || c = '\t'

/-- Drop leading whitespace characters. -/
def trimLeft : Str → Str
  | [] => []
  | c :: cs => if isSimWhitespace c then trimLeft cs else c :: cs

/-- Drop trailing whitespace characters. -/
def trimRight (s : Str) : Str := (trimLeft s.reverse).reverse

/-- Models Swift `String.trimmingCharacters(in: .whitespaces)`. -/
def trim (s : Str) : Str := trimLeft (trimRight s)

/-- Models Swift
`split(separator: sep, maxSplits: 1, omittingEmptySubsequences: true)`:
the first token (up to the first separator) and the remainder after that
separator (kept verbatim, omitted only when empty).  `parseCommand` only
applies this to trimmed input, which never starts with the separator. -/
def splitFirst (sep : Char) (s : Str) : List Str :=
  let t := s.takeWhile (fun c => !(c = sep))
  let r := s.dropWhile (fun c => !(c = sep))
  match r with
  | [] => if t.isEmpty then [] else [t]
  | _ :: rest =>
      (if t.isEmpty then [] else [t]) ++ (if rest.isEmpty then [] else [rest])

/-- Accumulator loop for `splitAll`. -/
def splitAllAux (sep : Char) : Str → Str → List Str
  | [], acc => if acc.isEmpty then [] else [acc.reverse]
  | c :: cs, acc =>
      if c = sep then
        if acc.isEmpty then splitAllAux sep cs []
        else acc.reverse :: splitAllAux sep cs []
      else splitAllAux sep cs (c :: acc)

/-- Models Swift `split(separator: sep, omittingEmptySubsequences: true)`
(no split limit). -/
def splitAll (sep : Char) (s : Str) : List Str := splitAllAux sep s []

/-- Models Swift `String.lowercased()` on the ASCII range. -/
def toLowerStr (s : Str) : Str := s.map Char.toLower

/-- Decimal digit test, `'0'` through `'9'`. -/
def isDigitChar (c : Char) : Bool := decide ('0' ≤ c) && decide (c ≤ '9')

/-- Value of a run of decimal digits, most significant first. -/
def digitsToNat (s : Str) : Nat :=
  s.foldl (fun acc c => acc * 10 + (c.toNat - '0'.toNat)) 0

/-- Parse a non-empty all-digit string to a `Nat`; models the digit-run
fragment shared by Swift `Int(_:)`, `UInt16(_:)` and `Double(_:)`. -/
def parseNatNum (s : Str) : Option Nat :=
  if s.isEmpty then none
  else if s.all isDigitChar then some (digitsToNat s) else none

/-- Models Swift `Int(_: String)` on optionally signed decimal strings. -/
def parseIntNum : Str → Option Int
  | '-' :: rest => (parseNatNum rest).map (fun n => -(n : Int))
  | '+' :: rest => (parseNatNum rest).map (fun n => (n : Int))
  | s => (parseNatNum s).map (fun n => (n : Int))

/-- Models Swift `UInt16(_: String)`: decimal digits, value below 2^16. -/
def parseUInt16 (s : Str) : Option Nat :=
  match parseNatNum s with
  | some n => if n < 65536 then some n else none
  | none => none

/-- Unsigned part of `parseDoubleNum`: digits with an optional fraction. -/
def parseUnsignedDouble (s : Str) : Option Rat :=
  let intPart := s.takeWhile isDigitChar
  let rest := s.dropWhile isDigitChar
  match rest with
  | [] => (parseNatNum intPart).map (fun n => (n : Rat))
  | '.' :: frac =>
      match parseNatNum intPart, parseNatNum frac with
      | some i, some f => some ((i : Rat) + (f : Rat) / (10 ^ frac.length : Rat))
      | _, _ => none
  | _ => none

/-- Models Swift `Double(_: String)` (and `Float(_: String)`) on the plain
optionally signed decimal strings the command protocol uses; the exotic
accepted forms (hex floats, exponents, infinities) are not modelled and
parse to `none`. -/
def parseDoubleNum : Str → Option Rat
  | '-' :: rest => (parseUnsignedDouble rest).map (fun q => -q)
  | '+' :: rest => parseUnsignedDouble rest
  | s => parseUnsignedDouble s

/-- Fuel-driven loop of `natRepr`, peeling decimal digits from the right.
The fuel argument only forces structural termination; `natRepr` hands it
enough fuel that it never runs out. -/
def natReprAux : Nat → Nat → Str → Str
  | 0, _, acc => acc
  | fuel + 1, n, acc =>
      if n = 0 then acc
      else natReprAux fuel (n / 10) (Char.ofNat ('0'.toNat + n % 10) :: acc)

/-- Decimal representation of a `Nat`; models Swift string interpolation
`"\(n)"` of a non-negative integer. -/
def natRepr (n : Nat) : Str :=
  if n = 0 then ['0'] else natReprAux n n []

namespace CommandHandler

/-- `CommandHandler.TouchType` from `CommandHandler.swift`. -/
inductive TouchType
  | began
  | moved
  | ended
deriving DecidableEq

/-- `TouchType(rawValue:)`. -/
def TouchType.ofRawValue (s : Str) : Option TouchType :=
  if s = "began".data then some .began
  else if s = "moved".data then some .moved
  else if s = "ended".data then some .ended
  else none

/-- `CommandHandler.ButtonType` from `CommandHandler.swift`. -/
inductive ButtonType
  | home
  | lock
  | sideButton
deriving DecidableEq

/-- `ButtonType(rawValue:)`. -/
def ButtonType.ofRawValue (s : Str) : Option ButtonType :=
  if s = "home".data then some .home
  else if s = "lock".data then some .lock
  else if s = "side".data then some .sideButton
  else none

/-- `CommandHandler.Direction` from `CommandHandler.swift`. -/
inductive Direction
  | down
  | up
deriving DecidableEq

/-- `Direction(rawValue:)`. -/
def Direction.ofRawValue (s : Str) : Option Direction :=
  if s = "down".data then some .down
  else if s = "up".data then some .up
  else none

/-- `CommandHandler.Command` from `CommandHandler.swift`. -/
inductive Command
  | rotate (s : Str)
  | touch (t : TouchType) (points : List (Rat × Rat))
  | button (b : ButtonType) (d : Direction)
  | key (code : Int) (d : Direction)
  | fps (enabled : Bool)
  | shutdown
  | unknown
deriving DecidableEq

/-- Indices visited by `stride(from: 1, to: bound, by: 2)` in the touch
branch of `parseCommand`: the odd numbers below `bound`. -/
def strideOddBelow (bound : Nat) : List Nat :=
  (List.range bound).filter (fun i => i % 2 = 1)

/-- The point-collection loop of the touch branch: for each stride index
`i`, parse `components[i]` and `components[i+1]` as doubles and keep the
pair when both parse (`Double` failures are skipped, preserving order). -/
def collectTouchPoints (components : List Str) : List (Rat × Rat) :=
  (strideOddBelow (components.length - 1)).filterMap fun i =>
    match parseDoubleNum (components.getD i []), parseDoubleNum (components.getD (i + 1) []) with
    | some x, some y => some (x, y)
    | _, _ => none

/-- `CommandHandler.parseCommand` from
`src/swift/Sources/SimulatorServer/CommandHandler.swift` (lines 71-148):
trim the line, split off the leading token with
`split(separator: " ", maxSplits: 1)`, and dispatch on it.  The touch
branch splits the whole argument string on commas and requires at least
three comma-separated components. -/
def parseCommand (line : Str) : Command :=
  let trimmed := trim line
  if trimmed.isEmpty then .unknown
  else
    let parts := splitFirst ' ' trimmed
    match parts with
    | [] => .unknown
    | command :: rest =>
      if command = "rotate".data then
        match rest with
        | a :: _ => .rotate a
        | [] => .unknown
      else if command = "touch".data then
        match rest with
        | args :: _ =>
          let components := splitAll ',' args
          if components.length ≥ 3 then
            match TouchType.ofRawValue (components.getD 0 []) with
            | some touchType =>
              let points := collectTouchPoints components
              if points.isEmpty then .unknown else .touch touchType points
            | none => .unknown
          else .unknown
        | [] => .unknown
      else if command = "button".data then
        match rest with
        | args :: _ =>
          let components := splitAll ',' args
          match components with
          | [b, d] =>
            match ButtonType.ofRawValue b, Direction.ofRawValue d with
            | some buttonType, some direction => .button buttonType direction
            | _, _ => .unknown
          | _ => .unknown
        | [] => .unknown
      else if command = "key".data then
        match rest with
        | args :: _ =>
          let components := splitAll ',' args
          match components with
          | [c, d] =>
            match parseIntNum c, Direction.ofRawValue d with
            | some keyCode, some direction => .key keyCode direction
            | _, _ => .unknown
          | _ => .unknown
        | [] => .unknown
      else if command = "fps".data then
        match rest with
        | a :: _ => .fps (toLowerStr a == "true".data)
        | [] => .unknown
      else if command = "shutdown".data then .shutdown
      else .unknown

end CommandHandler

namespace Part010

open CommandHandler

/-- `TouchType(rawValue:)` of `src/unnamed/part_010` (lines 19-23): the
enum keeps the case names `began`/`moved`/`ended` but declares the raw
values `Down`/`Move`/`Up`, so those are the strings this constructor
accepts. -/
def TouchType.ofRawValue (s : Str) : Option CommandHandler.TouchType :=
  if s = "Down".data then some .began
  else if s = "Move".data then some .moved
  else if s = "Up".data then some .ended
  else none

/-- Per-coordinate parsing loop of the touch branch in
`src/unnamed/part_010`: each space-separated token after the phase is
split on a comma and kept when it is exactly `x,y` with both halves
parsing as doubles. -/
def collectTouchPointsV2 (spaceParts : List Str) : List (Rat × Rat) :=
  (spaceParts.drop 1).filterMap fun tok =>
    match splitAll ',' tok with
    | [xs, ys] =>
      match parseDoubleNum xs, parseDoubleNum ys with
      | some x, some y => some (x, y)
      | _, _ => none
    | _ => none

/-- `CommandHandler.parseCommand` from `src/unnamed/part_010` (the parallel
snapshot of the command handler).  It differs from the
`CommandHandler.swift` version in the touch branch: the argument is split
on spaces (`touch <type> <x,y> [<x,y> ...]`, the file's comment gives the
example `touch Down 0.5,0.5`), and the `TouchType` raw values are
`Down`/`Move`/`Up` instead of `began`/`moved`/`ended`. -/
def parseCommand (line : Str) : Command :=
  let trimmed := trim line
  if trimmed.isEmpty then .unknown
  else
    let parts := splitFirst ' ' trimmed
    match parts with
    | [] => .unknown
    | command :: rest =>
      if command = "rotate".data then
        match rest with
        | a :: _ => .rotate a
        | [] => .unknown
      else if command = "touch".data then
        match rest with
        | args :: _ =>
          let spaceParts := splitAll ' ' args
          if spaceParts.length ≥ 2 then
            match Part010.TouchType.ofRawValue (spaceParts.getD 0 []) with
            | some touchType =>
              let points := collectTouchPointsV2 spaceParts
              if points.isEmpty then .unknown else .touch touchType points
            | none => .unknown
          else .unknown
        | [] => .unknown
      else if command = "button".data then
        match rest with
        | args :: _ =>
          let components := splitAll ',' args
          match components with
          | [b, d] =>
            match ButtonType.ofRawValue b, Direction.ofRawValue d with
            | some buttonType, some direction => .button buttonType direction
            | _, _ => .unknown
          | _ => .unknown
        | [] => .unknown
      else if command = "key".data then
        match rest with
        | args :: _ =>
          let components := splitAll ',' args
          match components with
          | [c, d] =>
            match parseIntNum c, Direction.ofRawValue d with
            | some keyCode, some direction => .key keyCode direction
            | _, _ => .unknown
          | _ => .unknown
        | [] => .unknown
      else if command = "fps".data then
        match rest with
        | a :: _ => .fps (toLowerStr a == "true".data)
        | [] => .unknown
      else if command = "shutdown".data then .shutdown
      else .unknown

end Part010

/-- `IndigoTouch` from `src/unnamed/part_012`: the touch record of the
private HID wire struct.  `UInt32`/`UInt64` fields are embedded as `Nat`
(no assignment can overflow them) and `Double` fields as `Rat`. -/
structure IndigoTouch where
  field1 : Nat
  field2 : Nat
  field3 : Nat
  xRatio : Rat
  yRatio : Rat
  field6 : Rat
  field7 : Rat
  field8 : Rat
  field9 : Nat
  field10 : Nat
  field11 : Nat
  field12 : Nat
  field13 : Nat
  field14 : Rat
  field15 : Rat
  field16 : Rat
  field17 : Rat
  field18 : Rat
deriving DecidableEq

/-- The all-zero `IndigoTouch`, as produced by the `memset` that zero-fills
the message buffer before the fields are assigned. -/
def IndigoTouch.zero : IndigoTouch :=
  ⟨0, 0, 0, 0, 0, 0, 0, 0, 0, 0, 0, 0, 0, 0, 0, 0, 0, 0⟩

/-- `IndigoPayload` from `src/unnamed/part_012` (the `event` union only ever
holds a touch here). -/
structure IndigoPayload where
  field1 : Nat
  timestamp : Nat
  field3 : Nat
  touch : IndigoTouch
deriving DecidableEq

/-- Byte size of `IndigoPayload` under the host ABI (4 + pad 4 + 8 + 4 +
pad 4 + 120-byte touch record); with the 176-byte message struct this gives
the 320-byte wire size the source comments on. -/
def indigoPayloadSize : Nat := 144

/-- One HID message as assembled by `TouchHandler.sendTouchEvent`: the
176-byte `IndigoMessage` followed by the duplicated payload.  The mach
message header is left zero by the `memset` and is not modelled. -/
structure IndigoMessage where
  innerSize : Nat
  eventType : Nat
  payload : IndigoPayload
  secondPayload : IndigoPayload
deriving DecidableEq

/-- `IndigoEventTypeTouch` from `src/unnamed/part_012`. -/
def IndigoEventTypeTouch : Nat := 2

namespace TouchHandler

open CommandHandler

/-- `TouchHandler.sendTouchEvent` from `src/unnamed/part_012` (lines
520-605): zero-fill the buffer, set the metadata, the touch record with the
normalized coordinates and the phase-dependent down flags (`began`/`moved`
give 1, `ended` gives 0), then duplicate the payload and overwrite the two
leading discriminator fields of the copy.  `ts` stands for the
`mach_absolute_time()` read. -/
def sendTouchEvent (ts : Nat) (x y : Rat) (touchType : TouchType) : IndigoMessage :=
  let downFlag : Nat :=
    match touchType with
    | .began => 1
    | .moved => 1
    | .ended => 0
  let touch : IndigoTouch :=
    { IndigoTouch.zero with
        field1 := 0x00400002
        field2 := 0x1
        field3 := 0x3
        xRatio := x
        yRatio := y
        field9 := downFlag
        field10 := downFlag
        field11 := 0x32
        field12 := 0x1
        field13 := 0x2 }
  let payload : IndigoPayload :=
    { field1 := 0x0000000b, timestamp := ts, field3 := 0, touch := touch }
  let secondPayload : IndigoPayload :=
    { payload with
        touch := { touch with field1 := 0x00000001, field2 := 0x00000002 } }
  { innerSize := indigoPayloadSize
    eventType := IndigoEventTypeTouch
    payload := payload
    secondPayload := secondPayload }

/-- `TouchHandler.sendTouch` from `src/unnamed/part_012` (lines 318-330):
no HID client means no messages; otherwise one `sendTouchEvent` per point,
in order.  `hidClient` models whether the handler started successfully. -/
def sendTouch (hidClient : Bool) (ts : Nat) (t : TouchType) (points : List (Rat × Rat)) :
    List IndigoMessage :=
  if hidClient then points.map (fun p => sendTouchEvent ts p.1 p.2 t) else []

end TouchHandler

/-- Outcome of the startup phase of `main` in
`src/swift/Sources/SimulatorServer/main.swift`. -/
inductive StartupOutcome
  | exitCode (n : Nat)
  | running (touchEnabled : Bool)
deriving DecidableEq

/-- Startup control flow of `main` (main.swift lines 74-190), with each
fallible component start abstracted to a success flag: the HTTP server
failing to bind exits 1 (lines 81-84); the touch handler failing to start
only logs a warning and leaves `touchHandler` nil (lines 92-99); the bridge
failing to start exits 1 (lines 178-181); otherwise the process reaches the
main loop with touch injection available iff the handler started. -/
def mainStartup (httpOk touchOk bridgeOk : Bool) : StartupOutcome :=
  if !httpOk then .exitCode 1
  else if !bridgeOk then .exitCode 1
  else .running touchOk

/-- The command-dispatch closure of `main` (main.swift lines 117-137),
restricted to the HID messages it causes: only a `touch` command reaches
`touchHandler?.sendTouch`, and only when the handler exists. -/
def dispatchHIDMessages (touchHandler : Bool) (ts : Nat) :
    CommandHandler.Command → List IndigoMessage
  | .touch t points => TouchHandler.sendTouch touchHandler ts t points
  | _ => []

/-- HID messages caused by one stdin line: `parseCommand` composed with the
dispatch closure (main.swift lines 117-137 with CommandHandler lines 54-68). -/
def hidMessagesForLine (touchHandler : Bool) (ts : Nat) (line : Str) : List IndigoMessage :=
  dispatchHIDMessages touchHandler ts (CommandHandler.parseCommand line)

/-- The `stream_ready` stdout emission (main.swift line 186):
`print` appends the trailing newline. -/
def streamReadyOutput (url : Str) : Str :=
  "stream_ready ".data ++ url ++ "\n".data

/-- The `fps_report` stdout emission (main.swift lines 206-218): the JSON is
a Swift multi-line string literal, interpolated and passed to `print`
(which appends the trailing newline).  The two counters are interpolated
with `"\(n)"`; the two `String(format:)` results are taken as strings. -/
def fpsReportOutput (frameCount encodedFrames : Nat) (fps elapsed : Str) : Str :=
  "fps_report \x7b\n  \"frame_count\": ".data ++ natRepr frameCount ++
    ",\n  \"encoded_frames\": ".data ++ natRepr encodedFrames ++
    ",\n  \"fps\": ".data ++ fps ++
    ",\n  \"elapsed\": ".data ++ elapsed ++ "\n\x7d\n".data

/-- Whether a stdout emission occupies exactly one newline-terminated line,
as §6 of the spec requires of both message families. -/
def isSingleLine (s : Str) : Bool :=
  s.count '\n' = 1 && s.getLast? = some '\n'

/-- The session parameters assembled by the argument loop of `main`
(main.swift lines 26-60). -/
structure ServerConfig where
  udid : Option Str
  fps : Int
  quality : Rat
  port : Nat
deriving DecidableEq

/-- Defaults of `main` (main.swift lines 26-29). -/
def defaultConfig : ServerConfig :=
  { udid := none, fps := 60, quality := 7 / 10, port := 0 }

/-- Result of the argument loop: `--help`/`-h` exits 0 immediately,
otherwise the loop runs to completion. -/
inductive ArgsOutcome
  | helpExit
  | parsed (cfg : ServerConfig)
deriving DecidableEq

/-- The argument loop of `main` (main.swift lines 33-60): each recognised
flag pops its value; `--fps` clamps through `min(120, max(1, v))` and
`--quality` through `min(1.0, max(0.1, q))` when the value parses, and
leaves the default in place when it does not; unknown flags are logged and
skipped. -/
def parseArgs : List Str → ServerConfig → ArgsOutcome
  | [], cfg => .parsed cfg
  | arg :: rest, cfg =>
    if arg = "--udid".data then
      match rest with
      | [] => parseArgs [] { cfg with udid := none }
      | v :: r => parseArgs r { cfg with udid := some v }
    else if arg = "--fps".data then
      match rest with
      | [] => parseArgs [] cfg
      | v :: r =>
        match parseIntNum v with
        | some intVal => parseArgs r { cfg with fps := min 120 (max 1 intVal) }
        | none => parseArgs r cfg
    else if arg = "--quality".data then
      match rest with
      | [] => parseArgs [] cfg
      | v :: r =>
        match parseDoubleNum v with
        | some fltVal => parseArgs r { cfg with quality := min 1 (max (1 / 10) fltVal) }
        | none => parseArgs r cfg
    else if arg = "--port".data then
      match rest with
      | [] => parseArgs [] cfg
      | v :: r =>
        match parseUInt16 v with
        | some portVal => parseArgs r { cfg with port := portVal }
        | none => parseArgs r cfg
    else if arg = "--help".data || arg = "-h".data then .helpExit
    else parseArgs rest cfg

/-- `CircularFrameBuffer` from
`src/swift/Sources/SimulatorServer/HTTPServer.swift` (lines 177-217).
There is one `readIndex` per buffer object, exactly as in the source, where
the single buffer instance is shared by every client of the `HTTPServer`. -/
structure CircularFrameBuffer (α : Type) where
  capacity : Nat
  frames : List α
  readIndex : Nat
deriving DecidableEq

/-- `HTTPServer.frameBuffer = CircularFrameBuffer(capacity: 5)`
(HTTPServer.swift line 9). -/
def initialFrameBuffer (α : Type) : CircularFrameBuffer α :=
  { capacity := 5, frames := [], readIndex := 0 }

namespace CircularFrameBuffer

/-- `CircularFrameBuffer.append` (HTTPServer.swift lines 187-195): push the
frame, then `removeFirst()` when the count exceeds the capacity. -/
def append (b : CircularFrameBuffer α) (f : α) : CircularFrameBuffer α :=
  let frames := b.frames ++ [f]
  if frames.length > b.capacity then { b with frames := frames.drop 1 }
  else { b with frames := frames }

/-- `CircularFrameBuffer.getAllFrames` (HTTPServer.swift lines 197-203):
return every frame and move `readIndex` to the count. -/
def getAllFrames (b : CircularFrameBuffer α) : List α × CircularFrameBuffer α :=
  (b.frames, { b with readIndex := b.frames.length })

/-- `CircularFrameBuffer.getNewFrames` (HTTPServer.swift lines 205-216):
nothing when `readIndex` has reached the count, otherwise the frames from
`readIndex` on, moving `readIndex` to the count. -/
def getNewFrames (b : CircularFrameBuffer α) : List α × CircularFrameBuffer α :=
  if b.readIndex ≥ b.frames.length then ([], b)
  else (b.frames.drop b.readIndex, { b with readIndex := b.frames.length })

end CircularFrameBuffer

/-- One operation on the shared frame buffer. -/
inductive BufOp (α : Type)
  | append (f : α)
  | getAllFrames
  | getNewFrames

/-- Apply one operation, discarding the returned frames. -/
def applyBufOp (b : CircularFrameBuffer α) : BufOp α → CircularFrameBuffer α
  | .append f => b.append f
  | .getAllFrames => (b.getAllFrames).2
  | .getNewFrames => (b.getNewFrames).2

/-- Run a sequence of operations against the server's buffer, starting from
the empty capacity-5 buffer of `HTTPServer`. -/
def runBufOps (ops : List (BufOp α)) : CircularFrameBuffer α :=
  ops.foldl applyBufOp (initialFrameBuffer α)

/-- ASCII bytes of a header string; models
`String.data(using: .utf8)`/`withCString` on the ASCII strings the server
writes. -/
def bytesOfAscii (s : Str) : List Nat := s.map Char.toNat

namespace HTTPServer

/-- `HTTPServer.writeMJPEGFrame` (HTTPServer.swift lines 155-172): boundary
line, two header lines, blank line, the JPEG bytes, trailing CRLF, built by
`Data.append` in that order. -/
def writeMJPEGFrame (jpegData : List Nat) : List Nat :=
  let boundary := "--mjpegstream".data
  let contentLength := jpegData.length
  let headerString :=
    boundary ++ "\r\nContent-Type: image/jpeg\r\nContent-Length: ".data ++
      natRepr contentLength ++ "\r\n\r\n".data
  bytesOfAscii headerString ++ jpegData ++ bytesOfAscii ("\r\n".data)

/-- Bytes a client worker writes for a sequence of frames: the per-frame
loop bodies of `handleClient` (HTTPServer.swift lines 125-130 and 141-151)
appended in order. -/
def clientWrittenBytes (frames : List (List Nat)) : List Nat :=
  frames.foldl (fun acc f => acc ++ writeMJPEGFrame f) []

end HTTPServer

/-- One MJPEG part as §4.C of the spec words it:
`--mjpegstream\r\nContent-Type: image/jpeg\r\nContent-Length: <N>\r\n\r\n`
then the `N` JPEG bytes then `\r\n`.  Stated from the spec, to be compared
with `HTTPServer.writeMJPEGFrame`. -/
def specMJPEGPart (jpegData : List Nat) : List Nat :=
  bytesOfAscii ("--mjpegstream\r\nContent-Type: image/jpeg\r\nContent-Length: ".data
      ++ natRepr jpegData.length ++ "\r\n\r\n".data)
    ++ jpegData ++ bytesOfAscii ("\r\n".data)

/-- State of one client worker streaming from the shared buffer, with
frames instrumented by their append sequence number: `nextSeq` counts the
appends so far, and `delivered` is everything the worker has written. -/
structure ClientTrace where
  nextSeq : Nat
  buf : CircularFrameBuffer Nat
  delivered : List Nat
deriving DecidableEq

/-- Events after the client connected: an encoder append to the ring, or
one iteration of the client's `getNewFrames` polling loop (`handleClient`,
HTTPServer.swift lines 133-152). -/
inductive ClientOp
  | append
  | getNewFrames

/-- One step of the post-connection interleaving. -/
def stepClient (s : ClientTrace) : ClientOp → ClientTrace
  | .append =>
      { s with nextSeq := s.nextSeq + 1, buf := s.buf.append s.nextSeq }
  | .getNewFrames =>
      let r := s.buf.getNewFrames
      { s with buf := r.2, delivered := s.delivered ++ r.1 }

/-- `k` frames appended before the client connects, from the empty buffer. -/
def preAppends : Nat → Nat × CircularFrameBuffer Nat
  | 0 => (0, initialFrameBuffer Nat)
  | k + 1 =>
      let r := preAppends k
      (r.1 + 1, r.2.append r.1)

/-- A full single-client run of `handleClient`: `k` appends happen first,
the client snapshots the ring with `getAllFrames` (HTTPServer.swift line
123) and writes the snapshot, then appends and `getNewFrames` polls
interleave arbitrarily. -/
def connectAndRun (k : Nat) (ops : List ClientOp) : ClientTrace :=
  let pre := preAppends k
  let snap := pre.2.getAllFrames
  ops.foldl stepClient { nextSeq := pre.1, buf := snap.2, delivered := snap.1 }

/-! ## Helper lemmas -/

theorem foldlAppend_eq_join {α β : Type} (g : α → List β) (l : List α) (a : List β) :
    l.foldl (fun acc f => acc ++ g f) a = a ++ (l.map g).flatten := by
  induction l generalizing a with
  | nil => simp
  | cons x xs ih => simp [ih, List.append_assoc]

theorem writeMJPEGFrame_eq_spec (jpegData : List Nat) :
    HTTPServer.writeMJPEGFrame jpegData = specMJPEGPart jpegData := by
  have hcat : ("--mjpegstream".data ++ "\r\nContent-Type: image/jpeg\r\nContent-Length: ".data)
      = "--mjpegstream\r\nContent-Type: image/jpeg\r\nContent-Length: ".data := by decide
  simp only [HTTPServer.writeMJPEGFrame, specMJPEGPart, ← List.append_assoc, hcat]

theorem clientWrittenBytes_eq_join (frames : List (List Nat)) :
    HTTPServer.clientWrittenBytes frames = (frames.map HTTPServer.writeMJPEGFrame).flatten := by
  simpa using foldlAppend_eq_join HTTPServer.writeMJPEGFrame frames []

theorem applyBufOp_inv {α : Type} (b : CircularFrameBuffer α) (op : BufOp α)
    (h : b.frames.length ≤ b.capacity) :
    (applyBufOp b op).frames.length ≤ b.capacity ∧
    (applyBufOp b op).capacity = b.capacity := by
  cases op with
  | append f =>
    simp only [applyBufOp, CircularFrameBuffer.append]
    split
    · simpa using h
    · next hle =>
      simp only [not_lt] at hle
      simpa using hle
  | getAllFrames => exact ⟨h, rfl⟩
  | getNewFrames =>
    simp only [applyBufOp, CircularFrameBuffer.getNewFrames]
    split <;> exact ⟨h, rfl⟩

theorem foldl_applyBufOp_inv {α : Type} (ops : List (BufOp α)) (b : CircularFrameBuffer α)
    (h : b.frames.length ≤ b.capacity) :
    (ops.foldl applyBufOp b).frames.length ≤ b.capacity ∧
    (ops.foldl applyBufOp b).capacity = b.capacity := by
  induction ops generalizing b with
  | nil => exact ⟨h, rfl⟩
  | cons op ops ih =>
    have h1 := applyBufOp_inv b op h
    have h2 := ih (applyBufOp b op) (h1.2 ▸ h1.1)
    exact ⟨h1.2 ▸ h2.1, h1.2 ▸ h2.2⟩

theorem append_readIndex {α : Type} (b : CircularFrameBuffer α) (f : α) :
    (b.append f).readIndex = b.readIndex := by
  simp only [CircularFrameBuffer.append]
  split <;> rfl

theorem append_length_ge {α : Type} (b : CircularFrameBuffer α) (f : α) :
    b.frames.length ≤ (b.append f).frames.length := by
  simp only [CircularFrameBuffer.append]
  split <;> simp

theorem mem_append_frames {α : Type} {b : CircularFrameBuffer α} {f x : α}
    (h : x ∈ (b.append f).frames) : x ∈ b.frames ∨ x = f := by
  have : x ∈ b.frames ++ [f] := by
    simp only [CircularFrameBuffer.append] at h
    split at h
    · exact List.mem_of_mem_drop h
    · exact h
  simpa using this

theorem append_drop_sublist {α : Type} (b : CircularFrameBuffer α) (f : α)
    (h : b.readIndex ≤ b.frames.length) :
    ((b.append f).frames.drop b.readIndex).Sublist (b.frames.drop b.readIndex ++ [f]) := by
  have hsplit : (b.frames ++ [f]).drop b.readIndex = b.frames.drop b.readIndex ++ [f] :=
    List.drop_append_of_le_length h
  simp only [CircularFrameBuffer.append]
  split
  · rw [List.drop_drop, Nat.add_comm 1 b.readIndex, ← List.drop_drop, hsplit]
    exact List.drop_sublist 1 _
  · rw [hsplit]

/-- Invariant carried along a single-client run: the cursor never passes the
count, every frame and every delivered sequence number is below the append
counter, and the delivered frames followed by the not-yet-consumed window
are strictly increasing. -/
def clientInv (s : ClientTrace) : Prop :=
  s.buf.readIndex ≤ s.buf.frames.length ∧
  (∀ x ∈ s.buf.frames, x < s.nextSeq) ∧
  (∀ x ∈ s.delivered, x < s.nextSeq) ∧
  (s.delivered ++ s.buf.frames.drop s.buf.readIndex).Pairwise (· < ·)

theorem stepClient_inv (s : ClientTrace) (op : ClientOp) (h : clientInv s) :
    clientInv (stepClient s op) := by
  obtain ⟨hr, hf, hd, hp⟩ := h
  cases op with
  | append =>
    refine ⟨?_, ?_, ?_, ?_⟩
    · simpa [stepClient, append_readIndex] using
        le_trans hr (append_length_ge s.buf s.nextSeq)
    · intro x hx
      rcases mem_append_frames hx with hx' | rfl
      · exact Nat.lt_succ_of_lt (hf x hx')
      · exact Nat.lt_succ_self _
    · exact fun x hx => Nat.lt_succ_of_lt (hd x hx)
    · have hsub :
          (s.delivered ++ (s.buf.append s.nextSeq).frames.drop s.buf.readIndex).Sublist
            ((s.delivered ++ s.buf.frames.drop s.buf.readIndex) ++ [s.nextSeq]) := by
        rw [List.append_assoc]
        exact (append_drop_sublist s.buf s.nextSeq hr).append_left s.delivered
      have hbig :
          ((s.delivered ++ s.buf.frames.drop s.buf.readIndex) ++ [s.nextSeq]).Pairwise
            (· < ·) := by
        rw [List.pairwise_append]
        refine ⟨hp, List.pairwise_singleton _ _, ?_⟩
        intro a ha b hb
        rw [List.mem_singleton] at hb
        subst hb
        rcases List.mem_append.mp ha with ha' | ha'
        · exact hd a ha'
        · exact hf a (List.mem_of_mem_drop ha')
      simpa [stepClient, append_readIndex] using hbig.sublist hsub
  | getNewFrames =>
    simp only [stepClient, CircularFrameBuffer.getNewFrames]
    split
    · exact ⟨hr, hf, by simpa using hd, by simpa using hp⟩
    · refine ⟨le_refl _, hf, ?_, ?_⟩
      · intro x hx
        rcases List.mem_append.mp hx with hx' | hx'
        · exact hd x hx'
        · exact hf x (List.mem_of_mem_drop hx')
      · simpa using hp

theorem foldl_stepClient_inv (ops : List ClientOp) (s : ClientTrace) (h : clientInv s) :
    clientInv (ops.foldl stepClient s) := by
  induction ops generalizing s with
  | nil => exact h
  | cons op ops ih => exact ih _ (stepClient_inv s op h)

theorem preAppends_inv (k : Nat) :
    (∀ x ∈ (preAppends k).2.frames, x < (preAppends k).1) ∧
    ((preAppends k).2.frames).Pairwise (· < ·) ∧
    (preAppends k).2.readIndex = 0 := by
  induction k with
  | zero => exact ⟨by simp [preAppends, initialFrameBuffer], by simp [preAppends, initialFrameBuffer], rfl⟩
  | succ k ih =>
    obtain ⟨hb, hp, hr⟩ := ih
    refine ⟨?_, ?_, ?_⟩
    · intro x hx
      rcases mem_append_frames hx with hx' | rfl
      · exact Nat.lt_succ_of_lt (hb x hx')
      · exact Nat.lt_succ_self _
    · have hbig : ((preAppends k).2.frames ++ [(preAppends k).1]).Pairwise (· < ·) := by
        rw [List.pairwise_append]
        refine ⟨hp, List.pairwise_singleton _ _, ?_⟩
        intro a ha x hx
        rw [List.mem_singleton] at hx
        subst hx
        exact hb a ha
      have hsub := append_drop_sublist (preAppends k).2 (preAppends k).1 (by simp [hr])
      rw [hr] at hsub
      simp only [List.drop_zero] at hsub
      simpa [preAppends] using hbig.sublist hsub
    · simp [preAppends, append_readIndex, hr]

/-! ## Claim theorems -/

/-- C6: for every JPEG byte vector the bytes written for that frame are
exactly the boundary line, the two headers with `Content-Length` equal to
the vector's length, a blank line, the JPEG bytes, and a trailing CRLF; a
client's whole stream is exactly the concatenation of such parts — the
boundary prefix precedes every part and nothing (in particular no
terminating boundary) is ever written outside a part. -/
theorem mjpeg_framing_confirmed (jpegData : List Nat) (frames : List (List Nat)) :
    HTTPServer.writeMJPEGFrame jpegData = specMJPEGPart jpegData ∧
    HTTPServer.clientWrittenBytes frames = (frames.map specMJPEGPart).flatten := by
  refine ⟨writeMJPEGFrame_eq_spec jpegData, ?_⟩
  rw [clientWrittenBytes_eq_join]
  exact congrArg List.flatten (List.map_congr_left fun f _ => writeMJPEGFrame_eq_spec f)

/-- C7: starting from the server's empty capacity-5 buffer, no sequence of
append/getAllFrames/getNewFrames operations ever leaves more than 5 frames
in the ring, and appending to a full ring of 5 drops exactly the oldest
frame while keeping the survivors in FIFO order before the new frame. -/
theorem ring_capacity_and_eviction {α : Type} (ops : List (BufOp α))
    (b : CircularFrameBuffer α) (f : α)
    (hcap : b.capacity = 5) (hfull : b.frames.length = 5) :
    (runBufOps ops).frames.length ≤ 5 ∧
    (b.append f).frames = b.frames.drop 1 ++ [f] := by
  constructor
  · have h := foldl_applyBufOp_inv ops (initialFrameBuffer α) (by simp [initialFrameBuffer])
    simpa [runBufOps, initialFrameBuffer] using h.1
  · simp only [CircularFrameBuffer.append]
    rw [if_pos (by simp [hcap, hfull])]
    simp only
    rw [List.drop_append_of_le_length (by omega)]

/-- Witness for C7 at a concrete full buffer and operation list. -/
theorem ring_capacity_and_eviction_witness :
    (({ capacity := 5, frames := [10, 11, 12, 13, 14], readIndex := 0 } :
        CircularFrameBuffer Nat).capacity = 5) ∧
    (({ capacity := 5, frames := [10, 11, 12, 13, 14], readIndex := 0 } :
        CircularFrameBuffer Nat).frames.length = 5) ∧
    ((runBufOps [BufOp.append 0, BufOp.append 1, BufOp.getNewFrames,
        BufOp.append 2]).frames.length ≤ 5 ∧
      (({ capacity := 5, frames := [10, 11, 12, 13, 14], readIndex := 0 } :
          CircularFrameBuffer Nat).append 9).frames = [11, 12, 13, 14, 9]) :=
  ⟨by decide, by decide, by
    have h := ring_capacity_and_eviction
      [BufOp.append 0, BufOp.append 1, BufOp.getNewFrames, BufOp.append 2]
      ({ capacity := 5, frames := [10, 11, 12, 13, 14], readIndex := 0 } :
        CircularFrameBuffer Nat) 9 (by decide) (by decide)
    exact ⟨h.1, by rw [h.2]; decide⟩⟩

/-- C2: the failing evaluation.  Five appends fill the ring, the reader's
`getAllFrames` moves its cursor to the latest index, and the next append
(which evicts the oldest frame) is then invisible: `getNewFrames` returns
`[]` instead of the newly appended frame, because `removeFirst()` shifts
the array under the unadjusted `readIndex`.  With only four frames in the
ring the same sequence does return exactly the new frame. -/
theorem ring_reader_starves_after_eviction :
    ((preAppends 5).2.getAllFrames).2.readIndex
        = ((preAppends 5).2.getAllFrames).2.frames.length ∧
    ((((preAppends 5).2.getAllFrames).2.append 5).getNewFrames).1 = [] ∧
    ((((preAppends 4).2.getAllFrames).2.append 4).getNewFrames).1 = [4] := by
  decide

/-- C3: the failing evaluation.  The single `CircularFrameBuffer` (and its
one `readIndex`) is shared by every client of the `HTTPServer`.  One frame
is in the ring; client A connects (`getAllFrames`), client B connects, a
second frame is appended while both are connected; B's poll consumes it and
A's poll then gets nothing, so the frame reaches only one of the two
clients, and B's connection moved A's cursor. -/
theorem shared_cursor_loses_frames_for_second_client :
    (let b0 := (initialFrameBuffer Nat).append 0
     let cA := b0.getAllFrames
     let cB := cA.2.getAllFrames
     let b1 := cB.2.append 1
     let pB := b1.getNewFrames
     let pA := pB.2.getNewFrames
     cA.1 ++ pA.1 = [0] ∧ cB.1 ++ pB.1 = [0, 1] ∧ pA.1 = []) := by
  decide

/-- C4 counterexample: with the HTTP server and bridge starting fine but
the HID injector failing to start, `main` does not exit with code 1 — it
logs a warning and keeps running with touch injection disabled
(main.swift lines 92-99). -/
theorem injector_failure_not_fatal :
    mainStartup true false true ≠ StartupOutcome.exitCode 1 ∧
    mainStartup true false true = StartupOutcome.running false := by
  decide

/-- C4 amended: startup exits 1 exactly when the HTTP server or the bridge
fails to start; an injector-only failure leaves the process running with
touch injection disabled. -/
theorem startup_exit_semantics (httpOk touchOk bridgeOk : Bool) :
    mainStartup httpOk touchOk bridgeOk
      = (if httpOk && bridgeOk then StartupOutcome.running touchOk
         else StartupOutcome.exitCode 1) := by
  cases httpOk <;> cases bridgeOk <;> rfl

/-- C9: over any number of appends before the connection and any
interleaving of appends and `getNewFrames` polls afterwards, the sequence
of frames delivered to a single client is strictly increasing in
append order: no frame is delivered twice and no two frames arrive out of
ring-append order (frames may be skipped, as back-pressure allows). -/
theorem single_client_in_order_no_duplicates (k : Nat) (ops : List ClientOp) :
    ((connectAndRun k ops).delivered).Pairwise (· < ·) := by
  obtain ⟨hb, hp, hr⟩ := preAppends_inv k
  have hinv : clientInv
      { nextSeq := (preAppends k).1
        buf := ((preAppends k).2.getAllFrames).2
        delivered := ((preAppends k).2.getAllFrames).1 } := by
    refine ⟨?_, ?_, ?_, ?_⟩
    · simp [CircularFrameBuffer.getAllFrames]
    · simpa [CircularFrameBuffer.getAllFrames] using hb
    · simpa [CircularFrameBuffer.getAllFrames] using hb
    · simpa [CircularFrameBuffer.getAllFrames, List.drop_length] using hp
  have hfin := foldl_stepClient_inv ops _ hinv
  have hpw := hfin.2.2.2
  exact (List.pairwise_append.mp hpw).1

theorem natReprAux_digits (fuel : Nat) :
    ∀ (n : Nat) (acc : Str), (∀ c ∈ acc, isDigitChar c = true) →
      ∀ c ∈ natReprAux fuel n acc, isDigitChar c = true := by
  induction fuel with
  | zero => intro n acc hacc; simpa [natReprAux] using hacc
  | succ fuel ih =>
    intro n acc hacc
    rw [natReprAux]
    split
    · exact hacc
    · apply ih
      intro c hc
      rcases List.mem_cons.mp hc with rfl | hc'
      · have hfin : ∀ i : Fin 10,
            isDigitChar (Char.ofNat ((Char.toNat '0') + i.val)) = true := by decide
        exact hfin ⟨n % 10, Nat.mod_lt _ (by norm_num)⟩
      · exact hacc c hc'

theorem natRepr_digits (n : Nat) : ∀ c ∈ natRepr n, isDigitChar c = true := by
  rw [natRepr]
  split
  · intro c hc
    rw [List.mem_singleton] at hc
    subst hc
    decide
  · exact natReprAux_digits n n [] (by simp)

theorem getLast?_append_right (l₁ : Str) {l₂ : Str} {c : Char}
    (h : l₂.getLast? = some c) : (l₁ ++ l₂).getLast? = some c := by
  have hne : l₂ ≠ [] := by
    intro hnil
    rw [hnil] at h
    simp at h
  rw [List.getLast?_append_of_ne_nil _ hne]
  exact h

theorem natRepr_count_newline (n : Nat) : (natRepr n).count '\n' = 0 := by
  rw [List.count_eq_zero]
  intro h
  exact absurd (natRepr_digits n _ h) (by decide)

/-- C5 counterexample: a concrete `fps_report` emission is not a single
newline-terminated line — the Swift multi-line string literal spreads the
JSON over six lines. -/
theorem fps_report_not_single_line :
    isSingleLine (fpsReportOutput 60 58 ("60.0".data) ("1.00".data)) = false ∧
    (fpsReportOutput 60 58 ("60.0".data) ("1.00".data)).count '\n' = 6 ∧
    isSingleLine (streamReadyOutput ("http://127.0.0.1:49154/stream.mjpeg".data))
      = true := by
  decide

/-- C5 amended: `stream_ready` is a single newline-terminated line and
everything stdout carries belongs to the two modelled families, but each
`fps_report` emission spans exactly six lines (the pretty-printed JSON with
the four fields), ending in a newline. -/
theorem stdout_structure_amended (frameCount encodedFrames : Nat)
    (fps elapsed url : Str)
    (hf : fps.count '\n' = 0) (he : elapsed.count '\n' = 0)
    (hu : url.count '\n' = 0) :
    isSingleLine (streamReadyOutput url) = true ∧
    (fpsReportOutput frameCount encodedFrames fps elapsed).count '\n' = 6 ∧
    (fpsReportOutput frameCount encodedFrames fps elapsed).getLast? = some '\n' := by
  refine ⟨?_, ?_, ?_⟩
  · have hcount : (streamReadyOutput url).count '\n' = 1 := by
      rw [streamReadyOutput, List.count_append, List.count_append, hu]
      decide
    have hlast : (streamReadyOutput url).getLast? = some '\n' := by
      rw [streamReadyOutput]
      exact getLast?_append_right _
        (show (("\n".data : Str)).getLast? = some '\n' by decide)
    simp [isSingleLine, hcount, hlast]
  · simp only [fpsReportOutput, List.count_append, hf, he, natRepr_count_newline]
    decide
  · rw [fpsReportOutput]
    exact getLast?_append_right _
      (show (("\n\x7d\n".data : Str)).getLast? = some '\n' by decide)

/-- Witness for the amended C5 theorem at concrete formatted values. -/
theorem stdout_structure_amended_witness :
    (("60.0".data : Str).count '\n' = 0) ∧ (("1.00".data : Str).count '\n' = 0) ∧
    (("http://127.0.0.1:49154/stream.mjpeg".data : Str).count '\n' = 0) ∧
    (isSingleLine (streamReadyOutput ("http://127.0.0.1:49154/stream.mjpeg".data)) = true ∧
      (fpsReportOutput 60 58 ("60.0".data) ("1.00".data)).count '\n' = 6 ∧
      (fpsReportOutput 60 58 ("60.0".data) ("1.00".data)).getLast? = some '\n') :=
  ⟨by decide, by decide, by decide,
    stdout_structure_amended 60 58 ("60.0".data) ("1.00".data)
      ("http://127.0.0.1:49154/stream.mjpeg".data) (by decide) (by decide) (by decide)⟩

/-- C8: the `--fps` value is clamped through `min(120, max(1, v))` and the
`--quality` value through `min(1.0, max(0.1, q))` for every parsed integer
and float value, with the boundary cases `--fps 0 → 1`, `--fps 999 → 120`,
`--quality 0 → 0.1` and `--quality 2 → 1.0`. -/
theorem cli_argument_clamping (vs qs : Str) (v : Int) (q : Rat)
    (hv : parseIntNum vs = some v) (hq : parseDoubleNum qs = some q) :
    parseArgs ["--fps".data, vs] defaultConfig
      = .parsed { defaultConfig with fps := min 120 (max 1 v) } ∧
    parseArgs ["--quality".data, qs] defaultConfig
      = .parsed { defaultConfig with quality := min 1 (max (1 / 10) q) } ∧
    parseArgs ["--fps".data, "0".data] defaultConfig
      = .parsed { defaultConfig with fps := 1 } ∧
    parseArgs ["--fps".data, "999".data] defaultConfig
      = .parsed { defaultConfig with fps := 120 } ∧
    parseArgs ["--quality".data, "0".data] defaultConfig
      = .parsed { defaultConfig with quality := 1 / 10 } ∧
    parseArgs ["--quality".data, "2".data] defaultConfig
      = .parsed { defaultConfig with quality := 1 } := by
  refine ⟨?_, ?_, ?_, ?_, ?_, ?_⟩
  · simp +decide [parseArgs, hv]
  · simp +decide [parseArgs, hq]
  · have h0 : parseIntNum ("0".data) = some 0 := by decide
    simp +decide [parseArgs, h0]
  · have h999 : parseIntNum ("999".data) = some 999 := by decide
    simp +decide [parseArgs, h999]
  · have h0 : parseDoubleNum ("0".data) = some ((0 : Nat) : Rat) := rfl
    simp +decide [parseArgs, h0, defaultConfig]
    norm_num
  · have h2 : parseDoubleNum ("2".data) = some ((2 : Nat) : Rat) := rfl
    simp +decide [parseArgs, h2, defaultConfig]

/-- Witness for C8 at the parsed values 0 and 0. -/
theorem cli_argument_clamping_witness :
    parseIntNum ("0".data) = some 0 ∧ parseDoubleNum ("0".data) = some ((0 : Nat) : Rat) ∧
    (parseArgs ["--fps".data, "0".data] defaultConfig
        = .parsed { defaultConfig with fps := min 120 (max 1 0) } ∧
      parseArgs ["--quality".data, "0".data] defaultConfig
        = .parsed { defaultConfig with quality := min 1 (max (1 / 10) ((0 : Nat) : Rat)) } ∧
      parseArgs ["--fps".data, "0".data] defaultConfig
        = .parsed { defaultConfig with fps := 1 } ∧
      parseArgs ["--fps".data, "999".data] defaultConfig
        = .parsed { defaultConfig with fps := 120 } ∧
      parseArgs ["--quality".data, "0".data] defaultConfig
        = .parsed { defaultConfig with quality := 1 / 10 } ∧
      parseArgs ["--quality".data, "2".data] defaultConfig
        = .parsed { defaultConfig with quality := 1 }) :=
  ⟨by decide, rfl,
    cli_argument_clamping ("0".data) ("0".data) 0 ((0 : Nat) : Rat) (by decide) rfl⟩

theorem trimLeft_cons_not_ws (c : Char) (cs : Str) (h : isSimWhitespace c = false) :
    trimLeft (c :: cs) = c :: cs := by
  simp [trimLeft, h]

theorem trimRight_of_getLast_not_ws (s : Str) (c : Char)
    (hlast : s.getLast? = some c) (hc : isSimWhitespace c = false) :
    trimRight s = s := by
  rcases List.eq_nil_or_concat s with rfl | ⟨l, b, rfl⟩
  · simp at hlast
  · rw [List.concat_eq_append] at hlast ⊢
    have hb : b = c := by
      rw [List.getLast?_concat] at hlast
      exact Option.some.inj hlast
    subst hb
    rw [trimRight]
    have hrev : (l ++ [b]).reverse = b :: l.reverse := by simp
    rw [hrev, trimLeft_cons_not_ws _ _ hc]
    simp

theorem trim_fps_line (arg : Str) (c : Char) (hlast : arg.getLast? = some c)
    (hc : isSimWhitespace c = false) :
    trim ("fps ".data ++ arg) = "fps ".data ++ arg := by
  have hne : arg ≠ [] := by
    intro h
    rw [h] at hlast
    simp at hlast
  have hl : ("fps ".data ++ arg).getLast? = some c := by
    rw [List.getLast?_append_of_ne_nil _ hne]
    exact hlast
  rw [trim, trimRight_of_getLast_not_ws _ c hl hc]
  exact trimLeft_cons_not_ws 'f' _ (by decide)

theorem splitFirst_fps (arg : Str) (hne : arg ≠ []) :
    splitFirst ' ' ("fps ".data ++ arg) = ["fps".data, arg] := by
  have h0 : arg.isEmpty = false := by
    cases arg with
    | nil => exact absurd rfl hne
    | cons a l => rfl
  show splitFirst ' ' ('f' :: 'p' :: 's' :: ' ' :: arg) = _
  rw [splitFirst]
  simp +decide [List.takeWhile_cons, List.dropWhile_cons, h0]

/-- C10: every line `fps <arg>` with a non-empty argument (not ending in
whitespace, so that trimming leaves the line intact) parses to the `fps`
command whose flag is true exactly when the lowercased argument equals
`true`; any other argument — `fps banana`, `fps False` — yields
`fps(false)`, never `unknown`. -/
theorem fps_argument_parsing (arg : Str) (c : Char)
    (hlast : arg.getLast? = some c) (hc : isSimWhitespace c = false) :
    CommandHandler.parseCommand ("fps ".data ++ arg)
      = .fps (toLowerStr arg == "true".data) ∧
    CommandHandler.parseCommand ("fps banana".data) = .fps false ∧
    CommandHandler.parseCommand ("fps False".data) = .fps false ∧
    CommandHandler.parseCommand ("fps TRUE".data) = .fps true := by
  refine ⟨?_, by decide, by decide, by decide⟩
  have hne : arg ≠ [] := by
    intro h
    rw [h] at hlast
    simp at hlast
  have hemp : ("fps ".data ++ arg).isEmpty = false := rfl
  simp only [CommandHandler.parseCommand, trim_fps_line arg c hlast hc, hemp,
    splitFirst_fps arg hne]
  simp +decide

/-- Witness for C10 at the argument `banana`. -/
theorem fps_argument_parsing_witness :
    ("banana".data : Str).getLast? = some 'a' ∧ isSimWhitespace 'a' = false ∧
    (CommandHandler.parseCommand ("fps ".data ++ "banana".data)
        = .fps ((toLowerStr ("banana".data)) == "true".data) ∧
      CommandHandler.parseCommand ("fps banana".data) = .fps false ∧
      CommandHandler.parseCommand ("fps False".data) = .fps false ∧
      CommandHandler.parseCommand ("fps TRUE".data) = .fps true) :=
  ⟨by decide, by decide, fps_argument_parsing ("banana".data) 'a' (by decide) (by decide)⟩

/-- C1: the dispatch pipeline evaluated on the spec's own test lines.  The
`CommandHandler.swift` parser cited by the claim splits the touch argument
on commas, so the documented space form `touch began 0.5,0.5` parses to
`unknown` and produces no HID message (first five conjuncts) — disagreeing
with the spec, the repo docs and the callers.  The parallel `part_010`
parser also rejects that literal line, because its `TouchType` raw values
are `Down`/`Move`/`Up` (sixth conjunct); on its own documented example
`touch Down 0.5,0.5` it parses the space form as a began-touch at
(0.5, 0.5) (seventh conjunct).  The comma form the cited parser does
accept yields exactly the claimed HID message fields: xRatio = yRatio =
0.5 with down flags (1,1) for `began` and (0,0) for `ended` (last two
conjuncts). -/
theorem touch_grammar_divergence :
    CommandHandler.parseCommand ("touch began 0.5,0.5".data) = .unknown ∧
    CommandHandler.parseCommand ("touch ended 0.5,0.5".data) = .unknown ∧
    hidMessagesForLine true 0 ("touch began 0.5,0.5".data) = [] ∧
    hidMessagesForLine true 0 ("touch ended 0.5,0.5".data) = [] ∧
    hidMessagesForLine true 0 ("touch banana".data) = [] ∧
    Part010.parseCommand ("touch began 0.5,0.5".data) = .unknown ∧
    Part010.parseCommand ("touch Down 0.5,0.5".data)
      = .touch .began [(1 / 2, 1 / 2)] ∧
    (hidMessagesForLine true 0 ("touch began,0.5,0.5".data)).map
        (fun m => (m.payload.touch.xRatio, m.payload.touch.yRatio,
          m.payload.touch.field9, m.payload.touch.field10))
      = [(1 / 2, 1 / 2, 1, 1)] ∧
    (hidMessagesForLine true 0 ("touch ended,0.5,0.5".data)).map
        (fun m => (m.payload.touch.xRatio, m.payload.touch.yRatio,
          m.payload.touch.field9, m.payload.touch.field10))
      = [(1 / 2, 1 / 2, 0, 0)] := by
  have hq : ((0 : Nat) : Rat) + ((5 : Nat) : Rat) / (10 : Rat) ^ (1 : Nat) = 1 / 2 := by
    push_cast
    norm_num
  refine ⟨by decide, by decide, by decide, by decide, by decide, by decide, ?_, ?_, ?_⟩
  · have h : Part010.parseCommand ("touch Down 0.5,0.5".data)
        = CommandHandler.Command.touch CommandHandler.TouchType.began
            [(((0 : Nat) : Rat) + ((5 : Nat) : Rat) / (10 : Rat) ^ (1 : Nat),
              ((0 : Nat) : Rat) + ((5 : Nat) : Rat) / (10 : Rat) ^ (1 : Nat))] := rfl
    rw [h, hq]
  · have h : (hidMessagesForLine true 0 ("touch began,0.5,0.5".data)).map
        (fun m => (m.payload.touch.xRatio, m.payload.touch.yRatio,
          m.payload.touch.field9, m.payload.touch.field10))
        = [(((0 : Nat) : Rat) + ((5 : Nat) : Rat) / (10 : Rat) ^ (1 : Nat),
            ((0 : Nat) : Rat) + ((5 : Nat) : Rat) / (10 : Rat) ^ (1 : Nat), 1, 1)] := rfl
    rw [h, hq]
  · have h : (hidMessagesForLine true 0 ("touch ended,0.5,0.5".data)).map
        (fun m => (m.payload.touch.xRatio, m.payload.touch.yRatio,
          m.payload.touch.field9, m.payload.touch.field10))
        = [(((0 : Nat) : Rat) + ((5 : Nat) : Rat) / (10 : Rat) ^ (1 : Nat),
            ((0 : Nat) : Rat) + ((5 : Nat) : Rat) / (10 : Rat) ^ (1 : Nat), 0, 0)] := rfl
    rw [h, hq]
